import Mathlib

/-!
# Verification of the time-viz rendering and interaction engine

Shallow embedding of `src/d3-time-viz.ts` (the `createTimeVizChart` factory).
Numeric JS values are modelled as rationals (`ℚ`); the relevant pieces of the
d3 library that the source calls (`d3.bisector(...).center`, `d3.extent`,
selection data joins, transitions) are embedded from their actual semantics.
-/

namespace TimeViz

/-! ## Nearest-point lookup (`handlePointerMoveCursor`)

The source computes `d3.bisector((d) => d).center(xValues, mouseDate)` and
clamps the result with `Math.max(0, Math.min(idx, data.length - 1))`.
`bisectLeft` embeds d3-array's `bisector(...).left` binary-search loop
(`while (lo < hi) { mid = (lo+hi) >>> 1; if (a[mid] < x) lo = mid+1; else hi = mid }`);
the NaN guard of the JS code cannot fire for a rational query and is omitted. -/

def bisectLeft (a : List ℚ) (x : ℚ) (lo hi : ℕ) : ℕ :=
  if h : lo < hi then
    let mid := (lo + hi) / 2
    if a.getD mid 0 < x then bisectLeft a x (mid + 1) hi
    else bisectLeft a x lo mid
  else lo
termination_by hi - lo
decreasing_by
  · omega
  · omega

/-- d3-array `bisector(f).center(a, x)` with `lo = 0`, `hi = a.length`:
`i = left(a, x, 0, hi - 1)`, then
`return i > lo && delta(a[i-1], x) > -delta(a[i], x) ? i - 1 : i`. -/
def bisectCenter (a : List ℚ) (x : ℚ) : ℕ :=
  let i := bisectLeft a x 0 (a.length - 1)
  if 0 < i ∧ a.getD (i - 1) 0 - x > -(a.getD i 0 - x) then i - 1 else i

/-- A d3 continuous scale with a two-element domain and range
(`scaleTime` / `scaleLinear` as configured by the chart); `invert` is the
affine inverse used by `xScale.invert(mouseX)`. -/
structure AffineScale where
  d0 : ℚ
  d1 : ℚ
  r0 : ℚ
  r1 : ℚ
deriving DecidableEq

def AffineScale.invert (s : AffineScale) (p : ℚ) : ℚ :=
  s.d0 + (p - s.r0) * (s.d1 - s.d0) / (s.r1 - s.r0)

/-- `handlePointerMoveCursor`: bounds check against the two ranges
(`[xMinRange, xMaxRange] = xScale.range()`, `[yMaxRange, yMinRange] = yScale.range()`),
then `idx = bisector.center(xValues, xScale.invert(mouseX))` clamped by
`Math.max(0, Math.min(idx, data.length - 1))`.  Returns the resolved row index,
`none` when the pointer is outside the plotting area or the data is empty
(the source hides the cursor resp. returns early in those branches). -/
def handlePointerMoveCursor (xScale yScale : AffineScale) (xValues : List ℚ)
    (mouseX mouseY : ℚ) : Option ℕ :=
  let xMinRange := xScale.r0
  let xMaxRange := xScale.r1
  let yMaxRange := yScale.r0
  let yMinRange := yScale.r1
  if mouseX < xMinRange ∨ mouseX > xMaxRange ∨ mouseY < yMinRange ∨ mouseY > yMaxRange then
    none
  else if xValues.length = 0 then
    none
  else
    let mouseDate := xScale.invert mouseX
    let idx := bisectCenter xValues mouseDate
    some (min idx (xValues.length - 1))

/-! ## d3 `extent` and the two scale domains -/

/-- A JS number that d3's `extent` comparisons can order: finite (as a
rational) or one of the two infinities.  `typeof` of any of these is
`"number"`. -/
inductive ExtNum where
  | negInf
  | fin (q : ℚ)
  | posInf
deriving DecidableEq

/-- The `<` comparison JS performs between two comparable numbers. -/
def ExtNum.lt : ExtNum → ExtNum → Bool
  | .negInf, .negInf => false
  | .negInf, _ => true
  | .fin _, .negInf => false
  | .fin a, .fin b => decide (a < b)
  | .fin _, .posInf => true
  | .posInf, _ => false

/-- One output of a series accessor as seen by `d3.extent`: a comparable
number, `NaN`, or a missing (`null`/`undefined`) value. -/
inductive SeriesVal where
  | num (v : ExtNum)
  | nan
  | missing
deriving DecidableEq

/-- One iteration of d3-array `extent(values)`: skip `null`/`undefined` and
values failing `value >= value` (NaN); otherwise initialise or update the
running min with `min > value` and the running max with `max < value`. -/
def extentStep (acc : Option (ExtNum × ExtNum)) (v : SeriesVal) : Option (ExtNum × ExtNum) :=
  match v, acc with
  | .missing, acc => acc
  | .nan, acc => acc
  | .num y, none => some (y, y)
  | .num y, some (mn, mx) =>
      some (if ExtNum.lt y mn then y else mn, if ExtNum.lt mx y then y else mx)

/-- d3-array `extent(values)` over series accessor outputs. -/
def extent (vs : List SeriesVal) : Option (ExtNum × ExtNum) :=
  vs.foldl extentStep none

/-- The y-values the render pass feeds to `extent`:
`data.flatMap((d) => series.map(({ accessor }) => accessor(d)))`. -/
def yValues {α : Type} (data : List α) (accessors : List (α → SeriesVal)) : List SeriesVal :=
  data.flatMap (fun d => accessors.map (fun accessor => accessor d))

/-- The y-domain computation of the render pass, before `.nice()` is applied;
the pass is aborted (warning logged) exactly when the result is `none`
(`typeof yMin === "number" && typeof yMax === "number"` fails only when
`extent` returned `[undefined, undefined]`). -/
def computeYDomain (vs : List SeriesVal) : Option (ExtNum × ExtNum) := extent vs

/-- One output of the time accessor `xSerie`: a `Date` (whose numeric value is
the rational timestamp) or a plain number. -/
inductive TimeVal where
  | date (t : ℚ)
  | num (q : ℚ)
deriving DecidableEq

/-- Numeric coercion JS applies when comparing a `Date` with `<` / `>`. -/
def TimeVal.toQ : TimeVal → ℚ
  | .date t => t
  | .num q => q

/-- `instanceof Date`. -/
def TimeVal.isDate : TimeVal → Bool
  | .date _ => true
  | .num _ => false

/-- One iteration of `d3.extent` over time values: every `Date` or number
passes the `value >= value` initialisation test, and comparisons coerce
numerically. -/
def extentTimeStep (acc : Option (TimeVal × TimeVal)) (v : TimeVal) : Option (TimeVal × TimeVal) :=
  match acc with
  | none => some (v, v)
  | some (mn, mx) =>
      some (if v.toQ < mn.toQ then v else mn, if mx.toQ < v.toQ then v else mx)

/-- `d3.extent(xVals)` over the time accessor's outputs. -/
def extentTime (vs : List TimeVal) : Option (TimeVal × TimeVal) :=
  vs.foldl extentTimeStep none

/-- The x-domain validation of the render pass:
`const [xMin, xMax] = d3.extent(xVals); if (!(xMin instanceof Date && xMax instanceof Date)) { warn; return; }`.
`true` means the pass proceeds to build `xScale`. -/
def xDomainCheck (vs : List TimeVal) : Bool :=
  match extentTime vs with
  | some (mn, mx) => mn.isDate && mx.isDate
  | none => false

/-! ## Config validation (`validateSetup`) and the render pass (`chart`) -/

/-- One entry of the `series` configuration (`TimeVizSeriesConfig`). -/
structure SeriesCfg (α : Type) where
  label : String
  accessor : α → SeriesVal
  color : Option String

/-- What `validateSetup` inspects about the color scale: that `.domain` and
`.range` are functions (the value itself being a function is implied by
being present in this model). -/
structure ColorScaleVal where
  hasDomain : Bool
  hasRange : Bool
deriving DecidableEq

/-- `MarginConfig` from `types.ts`. -/
structure MarginConfig where
  top : ℚ
  right : ℚ
  bottom : ℚ
  left : ℚ
deriving DecidableEq

/-- The closure variables `validateSetup` and `chart` read; a `none` models a
variable still `undefined` (never set, or set with a rejected argument). -/
structure ChartSetup (α : Type) where
  series : Option (List (SeriesCfg α))
  data : Option (List α)
  xSerie : Option (α → TimeVal)
  colorScale : Option ColorScaleVal

/-- The four enumerated warning reasons of `validateSetup`, in source order. -/
inductive ValidationError where
  | seriesMissing
  | dataMissing
  | xSerieMissing
  | colorScaleInvalid
deriving DecidableEq

/-- `validateSetup`: returns the reason of the first failing check
(`some reason` models `console.warn(...); return false`), or `none` when the
setup is valid.  Source order: series, then data, then `xSerie`, then
`colorScale`. -/
def validateSetup {α : Type} (s : ChartSetup α) : Option ValidationError :=
  match s.series with
  | none => some .seriesMissing
  | some sl =>
    if sl.isEmpty then some .seriesMissing
    else
      match s.data with
      | none => some .dataMissing
      | some dl =>
        if dl.isEmpty then some .dataMissing
        else
          match s.xSerie with
          | none => some .xSerieMissing
          | some _ =>
            match s.colorScale with
            | none => some .colorScaleInvalid
            | some c => if c.hasDomain && c.hasRange then none else some .colorScaleInvalid

/-- `series` is a non-empty array. -/
def ChartSetup.seriesOk {α : Type} (s : ChartSetup α) : Bool :=
  match s.series with
  | some l => !l.isEmpty
  | none => false

/-- `data` is a non-empty array. -/
def ChartSetup.dataOk {α : Type} (s : ChartSetup α) : Bool :=
  match s.data with
  | some l => !l.isEmpty
  | none => false

/-- `xSerie` is a function. -/
def ChartSetup.xSerieOk {α : Type} (s : ChartSetup α) : Bool :=
  s.xSerie.isSome

/-- `colorScale` is a function exposing `.domain` and `.range`. -/
def ChartSetup.colorOk {α : Type} (s : ChartSetup α) : Bool :=
  match s.colorScale with
  | some c => c.hasDomain && c.hasRange
  | none => false

/-- A node produced by a `selection.data(xs).join(...)` call, as far as
reconciliation is observable: DOM node identity (`id`, fresh per created
node), the `data-label` attribute written from the bound datum, and whether
the node took the enter behaviour on the latest pass (for paths: the
stroke-dash draw-in animation). -/
structure JoinedElem where
  id : ℕ
  label : String
  entered : Bool
deriving DecidableEq

/-- A d3 data join with the DEFAULT key — the datum's index, as in
`renderSeries`'s `.data(series).join(...)` and `renderLegend`'s
`.data(series).join("g")`, neither of which passes a key function: the first
`min(old, new)` nodes are reused (update selection), data beyond the old
length enter as fresh nodes, surplus old nodes are removed.  `nextId`
threads fresh DOM node identities. -/
def dataJoinByIndex (nextId : ℕ) (old : List JoinedElem) (ls : List String) :
    ℕ × List JoinedElem :=
  match old, ls with
  | _, [] => (nextId, [])
  | [], l :: ls =>
      let r := dataJoinByIndex (nextId + 1) [] ls
      (r.1, ⟨nextId, l, true⟩ :: r.2)
  | e :: es, l :: ls =>
      let r := dataJoinByIndex nextId es ls
      (r.1, ⟨e.id, l, false⟩ :: r.2)

/-- The drawing surface as reconciled by the render helpers: the `viewBox`
attribute, the singleton axis groups (joined to `[null]`), the gridline tick
data, and the index-joined series paths and legend items. -/
structure Surface where
  nextId : ℕ
  viewBox : Option (ℚ × ℚ)
  hasXAxis : Bool
  hasYAxis : Bool
  xGrid : List ℚ
  yGrid : List ℚ
  seriesPaths : List JoinedElem
  legendItems : List JoinedElem
deriving DecidableEq

/-- The identity-keyed content of the surface: everything except the
transient enter-animation flags and the id counter. -/
def Surface.keys (s : Surface) :
    Option (ℚ × ℚ) × Bool × Bool × List ℚ × List ℚ × List (ℕ × String) × List (ℕ × String) :=
  (s.viewBox, s.hasXAxis, s.hasYAxis, s.xGrid, s.yGrid,
    s.seriesPaths.map (fun e => (e.id, e.label)),
    s.legendItems.map (fun e => (e.id, e.label)))

/-- A mutation of the drawing surface performed by a render pass, in order:
`selection.attr("viewBox", ...)` and the child-element rendering calls
(axes, grids, labels, series, legend). -/
inductive Mutation where
  | setViewBox (w h : ℚ)
  | renderChildren
deriving DecidableEq

/-- Where a render pass stopped. -/
inductive RenderOutcome where
  | invalidSetup
  | zeroSize
  | nonPositiveInner
  | nonDateX
  | nonNumericY
  | rendered
deriving DecidableEq

/-- The body of `chart` after `validateSetup` has passed, with the validated
closure variables in scope.  `timeTicks`/`linTicks` abstract
`xScale.ticks(xTicks)` and `yScale.ticks(yTicks)` as deterministic functions
of the un-niced domain endpoints and the requested count.  Returns the new
surface, the ordered surface mutations of this pass, and the outcome. -/
def chartBody {α : Type} (timeTicks : ℚ × ℚ → ℕ → List ℚ)
    (linTicks : ExtNum × ExtNum → ℕ → List ℚ)
    (series : List (SeriesCfg α)) (data : List α) (xSerie : α → TimeVal)
    (margin : MarginConfig) (xTicks yTicks : ℕ) (width height : ℚ)
    (surf : Surface) : Surface × List Mutation × RenderOutcome :=
  if width = 0 ∨ height = 0 then (surf, [], .zeroSize)
  else
    let surf1 := { surf with viewBox := some (width, height) }
    let muts := [Mutation.setViewBox width height]
    let innerWidth := width - (margin.left + margin.right)
    let innerHeight := height - (margin.top + margin.bottom)
    if innerWidth ≤ 0 ∨ innerHeight ≤ 0 then (surf1, muts, .nonPositiveInner)
    else
      let xVals := data.map xSerie
      match extentTime xVals with
      | none => (surf1, muts, .nonDateX)
      | some (xMin, xMax) =>
        if !(xMin.isDate && xMax.isDate) then (surf1, muts, .nonDateX)
        else
          let yVals := yValues data (series.map SeriesCfg.accessor)
          match computeYDomain yVals with
          | none => (surf1, muts, .nonNumericY)
          | some (yMin, yMax) =>
            let labels := series.map SeriesCfg.label
            let j1 := dataJoinByIndex surf1.nextId surf1.seriesPaths labels
            let j2 := dataJoinByIndex j1.1 surf1.legendItems labels
            ({ nextId := j2.1,
               viewBox := some (width, height),
               hasXAxis := true,
               hasYAxis := true,
               xGrid := timeTicks (xMin.toQ, xMax.toQ) xTicks,
               yGrid := linTicks (yMin, yMax) yTicks,
               seriesPaths := j1.2,
               legendItems := j2.2 },
             muts ++ [Mutation.renderChildren], .rendered)

/-- The `chart` render invocation: `validateSetup`, then the guarded body.
The catch-all arm is unreachable when validation passed (the validated
fields are necessarily present). -/
def chart {α : Type} (timeTicks : ℚ × ℚ → ℕ → List ℚ)
    (linTicks : ExtNum × ExtNum → ℕ → List ℚ)
    (s : ChartSetup α) (margin : MarginConfig) (xTicks yTicks : ℕ)
    (width height : ℚ) (surf : Surface) : Surface × List Mutation × RenderOutcome :=
  match validateSetup s, s.series, s.data, s.xSerie with
  | none, some series, some data, some xSerie =>
      chartBody timeTicks linTicks series data xSerie margin xTicks yTicks width height surf
  | _, _, _, _ => (surf, [], .invalidSetup)

/-! ## The draw-in transition (`renderSeries` enter behaviour) -/

/-- `stroke-dashoffset` of an entering path `t` ms into the draw-in
transition: the enter handler sets `stroke-dasharray` and
`stroke-dashoffset` to the measured `getTotalLength()`, then transitions
`stroke-dashoffset` to 0 over `transitionTime`.  `ease` is the transition's
easing curve applied to normalised time (d3 defaults to `easeCubic`), with
`ease 0 = 0`; a zero-duration d3 transition jumps to the target value. -/
def dashOffsetAt (ease : ℚ → ℚ) (totalLength duration t : ℚ) : ℚ :=
  if duration ≤ 0 ∨ duration ≤ t then 0
  else totalLength * (1 - ease (t / duration))

/-- The visible (revealed) stroke length of the entering path: with
`stroke-dasharray = totalLength`, the first `totalLength - dashoffset`
units of the path are drawn. -/
def visibleLengthAt (ease : ℚ → ℚ) (totalLength duration t : ℚ) : ℚ :=
  totalLength - dashOffsetAt ease totalLength duration t

/-! ## The fluent setters -/

/-- `typeof` of a JS value. -/
inductive JsType where
  | function
  | boolean
  | number
  | string
  | object
  | undefined
deriving DecidableEq

/-- A JS value passed to one of the fluent setters. -/
inductive JsArg where
  | fn (hasDomain hasRange : Bool)
  | arr
  | boolVal (b : Bool)
  | numVal (q : ℚ)
  | nanVal
  | strVal (s : String)
  | marginObj (top right bottom left : Option ℚ)
  | tooltipObj
  | plainObj
  | nullVal
  | undefVal
deriving DecidableEq

def JsArg.typeof : JsArg → JsType
  | .fn _ _ => .function
  | .arr => .object
  | .boolVal _ => .boolean
  | .numVal _ => .number
  | .nanVal => .number
  | .strVal _ => .string
  | .marginObj _ _ _ _ => .object
  | .tooltipObj => .object
  | .plainObj => .object
  | .nullVal => .object
  | .undefVal => .undefined

def JsArg.isArray : JsArg → Bool
  | .arr => true
  | _ => false

/-- JS loose equality against null (`arg == null`). -/
def JsArg.looseNull : JsArg → Bool
  | .nullVal => true
  | .undefVal => true
  | _ => false

/-- Modelled from the spec (§3/§6 declared interface types): whether an
argument has the declared `MarginConfig` record type; used to compare the
setter's runtime guard against the declared type. -/
def isMarginRecord : JsArg → Bool
  | .marginObj _ _ _ _ => true
  | _ => false

/-- Modelled from the spec (§6 declared interface types): whether an argument
is a tooltip collaborator instance. -/
def isTooltipInstance : JsArg → Bool
  | .tooltipObj => true
  | _ => false

/-- The closure variables the fluent setters write, holding the JS values
currently stored (`margin` at field granularity, since `chart.margin`
merges with spread syntax). -/
structure ChartVars where
  xSerie : JsArg
  series : JsArg
  data : JsArg
  colorScale : JsArg
  isCurved : JsArg
  isStatic : JsArg
  transitionTime : JsArg
  xTicks : JsArg
  yTicks : JsArg
  margin : MarginConfig
  formatXAxis : JsArg
  formatYAxis : JsArg
  yAxisLabel : JsArg
  xAxisLabel : JsArg
  tooltip : JsArg
deriving DecidableEq

/-- The state after `createTimeVizChart()` (the `defaultConfig` values). -/
def defaultChartVars : ChartVars :=
  { xSerie := .undefVal, series := .undefVal, data := .undefVal, colorScale := .undefVal,
    isCurved := .boolVal false, isStatic := .boolVal false,
    transitionTime := .numVal 0, xTicks := .numVal 5, yTicks := .numVal 5,
    margin := ⟨30, 40, 30, 40⟩,
    formatXAxis := .strVal "%Y-%m-%d", formatYAxis := .strVal ".2f",
    yAxisLabel := .strVal "", xAxisLabel := .strVal "", tooltip := .undefVal }

/-- Each setter returns the updated closure state together with a flag that is
`true` exactly when `console.warn` was called; in either case the JS function
returns `chart`, so chaining always continues (the setters are total). -/
def chart.xSerie (st : ChartVars) (accessor : JsArg) : ChartVars × Bool :=
  if accessor.typeof ≠ .function then (st, true)
  else ({ st with xSerie := accessor }, false)

def chart.series (st : ChartVars) (fields : JsArg) : ChartVars × Bool :=
  if !fields.isArray then (st, true)
  else ({ st with series := fields }, false)

def chart.data (st : ChartVars) (dataset : JsArg) : ChartVars × Bool :=
  if !dataset.isArray then (st, true)
  else ({ st with data := dataset }, false)

def chart.colorScale (st : ChartVars) (color : JsArg) : ChartVars × Bool :=
  match color with
  | .fn hasDomain hasRange =>
      if hasDomain && hasRange then ({ st with colorScale := color }, false)
      else (st, true)
  | _ => (st, true)

def chart.isCurved (st : ChartVars) (bool : JsArg) : ChartVars × Bool :=
  if bool.typeof ≠ .boolean then (st, true)
  else ({ st with isCurved := bool }, false)

def chart.isStatic (st : ChartVars) (bool : JsArg) : ChartVars × Bool :=
  if bool.typeof ≠ .boolean then (st, true)
  else ({ st with isStatic := bool }, false)

/-- `typeof time !== "number" || time < 0`; note `NaN < 0` is false in JS, so
`NaN` passes the guard. -/
def chart.transitionTime (st : ChartVars) (time : JsArg) : ChartVars × Bool :=
  match time with
  | .numVal q => if q < 0 then (st, true) else ({ st with transitionTime := time }, false)
  | .nanVal => ({ st with transitionTime := time }, false)
  | _ => (st, true)

def chart.xTicks (st : ChartVars) (quantity : JsArg) : ChartVars × Bool :=
  match quantity with
  | .numVal q => if q < 0 then (st, true) else ({ st with xTicks := quantity }, false)
  | .nanVal => ({ st with xTicks := quantity }, false)
  | _ => (st, true)

def chart.yTicks (st : ChartVars) (quantity : JsArg) : ChartVars × Bool :=
  match quantity with
  | .numVal q => if q < 0 then (st, true) else ({ st with yTicks := quantity }, false)
  | .nanVal => ({ st with yTicks := quantity }, false)
  | _ => (st, true)

/-- `if (typeof marg !== "object" || marg == null) warn else margin = {...margin, ...marg}`:
spreading a margin record overrides the present fields; spreading any other
non-null object (an array included) adds no margin fields. -/
def chart.margin (st : ChartVars) (marg : JsArg) : ChartVars × Bool :=
  if marg.typeof ≠ .object ∨ marg.looseNull then (st, true)
  else
    match marg with
    | .marginObj t r b l =>
        ({ st with margin := ⟨t.getD st.margin.top, r.getD st.margin.right,
                              b.getD st.margin.bottom, l.getD st.margin.left⟩ }, false)
    | _ => (st, false)

def chart.formatXAxis (st : ChartVars) (format : JsArg) : ChartVars × Bool :=
  if format.typeof ≠ .string then (st, true)
  else ({ st with formatXAxis := format }, false)

def chart.formatYAxis (st : ChartVars) (format : JsArg) : ChartVars × Bool :=
  if format.typeof ≠ .string then (st, true)
  else ({ st with formatYAxis := format }, false)

def chart.yAxisLabel (st : ChartVars) (label : JsArg) : ChartVars × Bool :=
  if label.typeof ≠ .string then (st, true)
  else ({ st with yAxisLabel := label }, false)

def chart.xAxisLabel (st : ChartVars) (label : JsArg) : ChartVars × Bool :=
  if label.typeof ≠ .string then (st, true)
  else ({ st with xAxisLabel := label }, false)

def chart.tooltip (st : ChartVars) (tooltipInstance : JsArg) : ChartVars × Bool :=
  if tooltipInstance.typeof ≠ .object ∨ tooltipInstance.looseNull then (st, true)
  else ({ st with tooltip := tooltipInstance }, false)

/-! ## Concrete fixtures for evaluating the render pass -/

/-- Trivial tick generator (tick contents are irrelevant to the claims that
evaluate concrete renders). -/
def noTimeTicks : ℚ × ℚ → ℕ → List ℚ := fun _ _ => []

def noLinTicks : ExtNum × ExtNum → ℕ → List ℚ := fun _ _ => []

/-- A fresh, never-rendered drawing surface. -/
def emptySurface : Surface :=
  { nextId := 0, viewBox := none, hasXAxis := false, hasYAxis := false,
    xGrid := [], yGrid := [], seriesPaths := [], legendItems := [] }

def seriesA : SeriesCfg ℚ := ⟨"A", fun _ => .num (.fin 1), none⟩

def seriesB : SeriesCfg ℚ := ⟨"B", fun _ => .num (.fin 2), none⟩

def seriesC : SeriesCfg ℚ := ⟨"C", fun _ => .num (.fin 3), none⟩

/-- A fully valid setup over one data row at `Date(0)`. -/
def demoSetup (series : List (SeriesCfg ℚ)) : ChartSetup ℚ :=
  ⟨some series, some [0], some (fun q => .date q), some ⟨true, true⟩⟩

/-- One render invocation against a 10×10 surface with 1-unit margins. -/
def demoRender (series : List (SeriesCfg ℚ)) (surf : Surface) :
    Surface × List Mutation × RenderOutcome :=
  chart noTimeTicks noLinTicks (demoSetup series) ⟨1, 1, 1, 1⟩ 0 0 10 10 surf

/-! # Theorems -/

/-! ## Binary-search lookup (C1) -/

theorem bisectLeft_eq (a : List ℚ) (x : ℚ) (lo hi : ℕ) :
    bisectLeft a x lo hi =
      if lo < hi then
        (if a.getD ((lo + hi) / 2) 0 < x then bisectLeft a x ((lo + hi) / 2 + 1) hi
         else bisectLeft a x lo ((lo + hi) / 2))
      else lo := by
  rw [bisectLeft]
  rfl

/-- Loop invariant of the `left` bisection: the result splits `[lo, hi)` into
a strictly-below-`x` lower part and an at-least-`x` upper part. -/
theorem bisectLeft_inv (a : List ℚ) (x : ℚ)
    (hmono : ∀ p q, p ≤ q → q < a.length → a.getD p 0 ≤ a.getD q 0) :
    ∀ n lo hi, hi - lo ≤ n → lo ≤ hi → hi ≤ a.length →
      lo ≤ bisectLeft a x lo hi ∧ bisectLeft a x lo hi ≤ hi ∧
      (∀ j, lo ≤ j → j < bisectLeft a x lo hi → a.getD j 0 < x) ∧
      (∀ j, bisectLeft a x lo hi ≤ j → j < hi → x ≤ a.getD j 0) := by
  intro n
  induction n with
  | zero =>
    intro lo hi hfuel hle _hlen
    have heq : lo = hi := by omega
    subst heq
    rw [bisectLeft_eq, if_neg (lt_irrefl lo)]
    exact ⟨le_refl lo, le_refl lo, fun j h1 h2 => absurd h2 (by omega),
      fun j h1 h2 => absurd h2 (by omega)⟩
  | succ n ih =>
    intro lo hi hfuel hle hlen
    by_cases h : lo < hi
    · rw [bisectLeft_eq, if_pos h]
      have hm1 : lo ≤ (lo + hi) / 2 := by omega
      have hm2 : (lo + hi) / 2 < hi := by omega
      by_cases hx : a.getD ((lo + hi) / 2) 0 < x
      · rw [if_pos hx]
        obtain ⟨h1, h2, h3, h4⟩ := ih ((lo + hi) / 2 + 1) hi (by omega) (by omega) hlen
        refine ⟨by omega, h2, ?_, h4⟩
        intro j hj1 hj2
        by_cases hj3 : (lo + hi) / 2 + 1 ≤ j
        · exact h3 j hj3 hj2
        · have : j ≤ (lo + hi) / 2 := by omega
          exact lt_of_le_of_lt (hmono j ((lo + hi) / 2) this (by omega)) hx
      · rw [if_neg hx]
        obtain ⟨h1, h2, h3, h4⟩ := ih lo ((lo + hi) / 2) (by omega) (by omega) (by omega)
        refine ⟨h1, by omega, h3, ?_⟩
        intro j hj1 hj2
        by_cases hj3 : j < (lo + hi) / 2
        · exact h4 j hj1 hj3
        · have hle2 : (lo + hi) / 2 ≤ j := by omega
          exact le_trans (not_lt.mp hx) (hmono ((lo + hi) / 2) j hle2 (by omega))
    · rw [bisectLeft_eq, if_neg h]
      exact ⟨le_refl lo, hle, fun j h1 h2 => absurd h2 (by omega),
        fun j h1 h2 => absurd (by omega : lo ≤ j ∧ j < hi) (by omega)⟩

theorem sorted_getD_lt (a : List ℚ) (hs : a.Sorted (· < ·)) :
    ∀ p q, p < q → q < a.length → a.getD p 0 < a.getD q 0 := by
  intro p q hpq hq
  have hp : p < a.length := lt_trans hpq hq
  rw [List.getD_eq_getElem a 0 hp, List.getD_eq_getElem a 0 hq]
  exact List.pairwise_iff_get.mp hs ⟨p, hp⟩ ⟨q, hq⟩ hpq

theorem sorted_getD_le (a : List ℚ) (hs : a.Sorted (· < ·)) :
    ∀ p q, p ≤ q → q < a.length → a.getD p 0 ≤ a.getD q 0 := by
  intro p q hpq hq
  rcases eq_or_lt_of_le hpq with h | h
  · subst h; exact le_refl _
  · exact (sorted_getD_lt a hs p q h hq).le

/-- `bisector(...).center` on a strictly sorted non-empty list returns an
in-range index of a closest element; all strictly larger indices are
strictly farther, i.e. ties resolve toward the upper index. -/
theorem bisectCenter_nearest (a : List ℚ) (x : ℚ) (hs : a.Sorted (· < ·)) (hne : a ≠ []) :
    bisectCenter a x < a.length ∧
    (∀ j, j < a.length → |a.getD (bisectCenter a x) 0 - x| ≤ |a.getD j 0 - x|) ∧
    (∀ j, bisectCenter a x < j → j < a.length →
      |a.getD (bisectCenter a x) 0 - x| < |a.getD j 0 - x|) := by
  have hn : 0 < a.length := List.length_pos.mpr hne
  have hmono := sorted_getD_le a hs
  have hstrict := sorted_getD_lt a hs
  obtain ⟨hi0, hi1, A, B⟩ :=
    bisectLeft_inv a x hmono (a.length - 1) 0 (a.length - 1) (by omega) (by omega) (by omega)
  set i := bisectLeft a x 0 (a.length - 1) with hidef
  unfold bisectCenter
  rw [← hidef]
  by_cases hcond : 0 < i ∧ a.getD (i - 1) 0 - x > -(a.getD i 0 - x)
  · -- condition true: the code returns i - 1
    rw [if_pos hcond]
    obtain ⟨hipos, hgt⟩ := hcond
    have him1 : a.getD (i - 1) 0 < x := A (i - 1) (by omega) (by omega)
    have hxi : x < a.getD i 0 := by linarith
    have hd : |a.getD (i - 1) 0 - x| = x - a.getD (i - 1) 0 := by
      rw [abs_of_nonpos (by linarith)]; ring
    refine ⟨by omega, ?_, ?_⟩
    · intro j hj
      by_cases hji : j ≤ i - 1
      · have h1 : a.getD j 0 ≤ a.getD (i - 1) 0 := hmono j (i - 1) hji (by omega)
        rw [hd, abs_of_nonpos (by linarith)]
        linarith
      · have hij : i ≤ j := by omega
        have h1 : a.getD i 0 ≤ a.getD j 0 := hmono i j hij hj
        rw [hd, abs_of_nonneg (by linarith)]
        linarith
    · intro j hj1 hj2
      have hij : i ≤ j := by omega
      have h1 : a.getD i 0 ≤ a.getD j 0 := hmono i j hij hj2
      rw [hd, abs_of_nonneg (by linarith)]
      linarith
  · -- condition false: the code returns i
    rw [if_neg hcond]
    by_cases hiz : i = 0
    · simp only [hiz] at B ⊢
      by_cases hn1 : a.length = 1
      · refine ⟨by omega, ?_, ?_⟩
        · intro j hj
          have : j = 0 := by omega
          subst this; exact le_refl _
        · intro j hj1 hj2
          omega
      · have h0 : x ≤ a.getD 0 0 := B 0 (le_refl 0) (by omega)
        refine ⟨by omega, ?_, ?_⟩
        · intro j hj
          have h1 : a.getD 0 0 ≤ a.getD j 0 := hmono 0 j (by omega) hj
          rw [abs_of_nonneg (by linarith), abs_of_nonneg (by linarith)]
          linarith
        · intro j hj1 hj2
          have h1 : a.getD 0 0 < a.getD j 0 := hstrict 0 j hj1 hj2
          rw [abs_of_nonneg (by linarith), abs_of_nonneg (by linarith)]
          linarith
    · have hipos : 0 < i := by omega
      have hle2 : a.getD (i - 1) 0 - x ≤ -(a.getD i 0 - x) := by
        by_contra hcon
        exact hcond ⟨hipos, by linarith⟩
      have him1 : a.getD (i - 1) 0 < x := A (i - 1) (by omega) (by omega)
      have hilen : i < a.length := by omega
      by_cases hxi : x ≤ a.getD i 0
      · have hd : |a.getD i 0 - x| = a.getD i 0 - x := abs_of_nonneg (by linarith)
        refine ⟨hilen, ?_, ?_⟩
        · intro j hj
          by_cases hji : j < i
          · have h1 : a.getD j 0 ≤ a.getD (i - 1) 0 := hmono j (i - 1) (by omega) (by omega)
            rw [hd, abs_of_nonpos (by linarith)]
            linarith
          · have h1 : a.getD i 0 ≤ a.getD j 0 := hmono i j (by omega) hj
            rw [hd, abs_of_nonneg (by linarith)]
            linarith
        · intro j hj1 hj2
          have h1 : a.getD i 0 < a.getD j 0 := hstrict i j hj1 hj2
          rw [hd, abs_of_nonneg (by linarith)]
          linarith
      · -- the query lies beyond a.getD i, which forces i = a.length - 1
        have hlast : i = a.length - 1 := by
          by_contra hcon
          exact hxi (B i (le_refl i) (by omega))
        have hax : a.getD i 0 < x := not_le.mp hxi
        refine ⟨hilen, ?_, ?_⟩
        · intro j hj
          have h1 : a.getD j 0 ≤ a.getD i 0 := hmono j i (by omega) hilen
          rw [abs_of_nonpos (by linarith), abs_of_nonpos (by linarith)]
          linarith
        · intro j hj1 hj2
          omega

set_option maxRecDepth 4000 in
/-- C1 is false as stated: with the identity time scale over `[0, 2]` and the
pointer at the pixel whose inverted coordinate is the midpoint time 1,
`handlePointerMoveCursor` resolves index 1 even though index 0 attains the
same minimal distance `|t_i - queryTime|`; the tie is resolved toward the
upper index, not the lower one. -/
theorem nearest_lookup_lower_tie_refuted :
    handlePointerMoveCursor ⟨0, 2, 0, 2⟩ ⟨0, 1, 10, 0⟩ [0, 2] 1 5 = some 1 ∧
    AffineScale.invert ⟨0, 2, 0, 2⟩ 1 = 1 ∧
    |([0, 2] : List ℚ).getD 0 0 - 1| = |([0, 2] : List ℚ).getD 1 0 - 1| := by
  refine ⟨?_, by norm_num [AffineScale.invert], by norm_num [List.getD]⟩
  simp [handlePointerMoveCursor, AffineScale.invert, bisectCenter, bisectLeft_eq, List.getD]
  norm_num

/-- C1 (amended): for a strictly time-sorted dataset and a pointer inside the
plotting area, `handlePointerMoveCursor` returns the index minimizing
`|t_i - queryTime|` (queryTime being the inverted horizontal pixel
coordinate), with ties resolved toward the UPPER index, and the resulting
index lies in `[0, lastIndex]`. -/
theorem nearest_lookup_upper_tie (xScale yScale : AffineScale) (times : List ℚ)
    (mouseX mouseY : ℚ) (hs : times.Sorted (· < ·)) (hne : times ≠ [])
    (hx1 : xScale.r0 ≤ mouseX) (hx2 : mouseX ≤ xScale.r1)
    (hy1 : yScale.r1 ≤ mouseY) (hy2 : mouseY ≤ yScale.r0) :
    ∃ c, handlePointerMoveCursor xScale yScale times mouseX mouseY = some c ∧
      c ≤ times.length - 1 ∧
      (∀ j, j < times.length →
        |times.getD c 0 - xScale.invert mouseX| ≤ |times.getD j 0 - xScale.invert mouseX|) ∧
      (∀ j, c < j → j < times.length →
        |times.getD c 0 - xScale.invert mouseX| < |times.getD j 0 - xScale.invert mouseX|) := by
  obtain ⟨h1, h2, h3⟩ := bisectCenter_nearest times (xScale.invert mouseX) hs hne
  refine ⟨bisectCenter times (xScale.invert mouseX), ?_, by omega, h2, h3⟩
  have hcond : ¬(mouseX < xScale.r0 ∨ mouseX > xScale.r1 ∨
      mouseY < yScale.r1 ∨ mouseY > yScale.r0) := by
    push_neg
    exact ⟨hx1, hx2, hy1, hy2⟩
  have hlen : ¬times.length = 0 := by
    have := List.length_pos.mpr hne
    omega
  simp only [handlePointerMoveCursor]
  rw [if_neg hcond, if_neg hlen]
  exact congrArg some (Nat.min_eq_left (by omega))

/-- Witness for `nearest_lookup_upper_tie` at a concrete in-bounds input. -/
theorem nearest_lookup_upper_tie_witness :
    ∃ c, handlePointerMoveCursor ⟨0, 3, 0, 3⟩ ⟨0, 1, 10, 0⟩ [0, 1, 3] 2 5 = some c ∧
      c ≤ ([0, 1, 3] : List ℚ).length - 1 ∧
      (∀ j, j < ([0, 1, 3] : List ℚ).length →
        |([0, 1, 3] : List ℚ).getD c 0 - AffineScale.invert ⟨0, 3, 0, 3⟩ 2| ≤
          |([0, 1, 3] : List ℚ).getD j 0 - AffineScale.invert ⟨0, 3, 0, 3⟩ 2|) ∧
      (∀ j, c < j → j < ([0, 1, 3] : List ℚ).length →
        |([0, 1, 3] : List ℚ).getD c 0 - AffineScale.invert ⟨0, 3, 0, 3⟩ 2| <
          |([0, 1, 3] : List ℚ).getD j 0 - AffineScale.invert ⟨0, 3, 0, 3⟩ 2|) :=
  nearest_lookup_upper_tie ⟨0, 3, 0, 3⟩ ⟨0, 1, 10, 0⟩ [0, 1, 3] 2 5
    (by decide) (by decide) (by norm_num) (by norm_num) (by norm_num) (by norm_num)

/-! ## Config validator (C4) -/

/-- C4 is false as stated: with both `data` and `series` invalid,
`validateSetup` reports the SERIES check's reason, because the code checks
series before data. -/
theorem validate_series_checked_first :
    validateSetup (⟨none, none, none, none⟩ : ChartSetup Unit) =
      some ValidationError.seriesMissing ∧
    ValidationError.seriesMissing ≠ ValidationError.dataMissing := by
  exact ⟨rfl, by decide⟩

/-- C4 (amended): the checks run in the order series, data, time accessor,
color scale, reporting the first failing check's reason; validation passes
exactly when all four checks hold. -/
theorem validateSetup_check_order {α : Type} (s : ChartSetup α) :
    (validateSetup s = none ↔
      (s.seriesOk = true ∧ s.dataOk = true ∧ s.xSerieOk = true ∧ s.colorOk = true)) ∧
    (s.seriesOk = false → validateSetup s = some .seriesMissing) ∧
    (s.seriesOk = true → s.dataOk = false → validateSetup s = some .dataMissing) ∧
    (s.seriesOk = true → s.dataOk = true → s.xSerieOk = false →
      validateSetup s = some .xSerieMissing) ∧
    (s.seriesOk = true → s.dataOk = true → s.xSerieOk = true → s.colorOk = false →
      validateSetup s = some .colorScaleInvalid) := by
  obtain ⟨ser, da, xs, cs⟩ := s
  cases ser <;> cases da <;> cases xs <;> cases cs <;>
    simp [validateSetup, ChartSetup.seriesOk, ChartSetup.dataOk, ChartSetup.xSerieOk,
      ChartSetup.colorOk, Option.isSome] <;>
    split_ifs <;> simp_all

/-- Witness for `validateSetup_check_order`: series present but data missing
reports the data reason. -/
theorem validateSetup_check_order_witness :
    validateSetup
      (⟨some [⟨"A", fun _ => SeriesVal.nan, none⟩], none, none, none⟩ : ChartSetup Unit) =
      some ValidationError.dataMissing :=
  (validateSetup_check_order _).2.2.1 rfl rfl

/-! ## Value-domain computation (C5, C2) -/

/-- Once initialised, the extent fold stays initialised. -/
theorem extent_fold_isSome (vs : List SeriesVal) :
    ∀ p : ExtNum × ExtNum, ∃ q, vs.foldl extentStep (some p) = some q := by
  induction vs with
  | nil => intro p; exact ⟨p, rfl⟩
  | cons v vs ih =>
    intro p
    cases v with
    | num y =>
      simpa [extentStep] using ih _
    | nan => simpa [extentStep] using ih p
    | missing => simpa [extentStep] using ih p

/-- The extent fold initialises exactly when some comparable value occurs. -/
theorem extent_isSome_iff (vs : List SeriesVal) :
    (extent vs).isSome = true ↔ ∃ v ∈ vs, ∃ x, v = SeriesVal.num x := by
  induction vs with
  | nil => simp [extent]
  | cons v vs ih =>
    cases v with
    | num y =>
      obtain ⟨q, hq⟩ := extent_fold_isSome vs (y, y)
      simp [extent, extentStep, hq]
    | nan =>
      simp only [extent, List.foldl_cons, extentStep] at *
      rw [ih]
      simp
    | missing =>
      simp only [extent, List.foldl_cons, extentStep] at *
      rw [ih]
      simp

/-- C5 is false as stated: a `NaN` accessor output is silently skipped by
`d3.extent` (the domain becomes `[1, 3]` and the pass proceeds), and an
`Infinity` output passes the `typeof === "number"` test and lands in the
domain; neither aborts the render pass. -/
theorem nonfinite_values_not_rejected :
    computeYDomain [SeriesVal.num (.fin 1), SeriesVal.nan, SeriesVal.num (.fin 3)] =
      some (.fin 1, .fin 3) ∧
    SeriesVal.nan ∈ [SeriesVal.num (.fin 1), SeriesVal.nan, SeriesVal.num (.fin 3)] ∧
    computeYDomain [SeriesVal.num (.fin 1), SeriesVal.num .posInf] =
      some (.fin 1, .posInf) := by
  refine ⟨?_, by simp, ?_⟩ <;> rfl

/-- C5 (amended): the render pass aborts on the value domain exactly when NO
accessor output over all rows and series is a comparable number — i.e. when
every output is `NaN` or missing.  `NaN` and missing outputs occurring among
comparable ones are silently skipped, and infinite outputs are admitted into
the domain rather than aborting. -/
theorem yDomain_abort_iff_no_comparable (vs : List SeriesVal) :
    (computeYDomain vs).isSome = true ↔ ∃ v ∈ vs, ∃ x, v = SeriesVal.num x :=
  extent_isSome_iff vs

/-- Witness for `yDomain_abort_iff_no_comparable`. -/
theorem yDomain_abort_iff_witness :
    (computeYDomain [SeriesVal.num (.fin 2)]).isSome = true :=
  (yDomain_abort_iff_no_comparable [SeriesVal.num (.fin 2)]).mpr
    ⟨SeriesVal.num (.fin 2), by simp, .fin 2, rfl⟩

/-- The extent fold over all-finite values computes the running min and max. -/
theorem extent_fold_fin :
    ∀ (vs : List SeriesVal), (∀ v ∈ vs, ∃ q : ℚ, v = .num (.fin q)) → ∀ a b : ℚ,
    ∃ lo hi : ℚ, vs.foldl extentStep (some (.fin a, .fin b)) = some (.fin lo, .fin hi) ∧
      (lo = a ∨ SeriesVal.num (.fin lo) ∈ vs) ∧ (hi = b ∨ SeriesVal.num (.fin hi) ∈ vs) ∧
      lo ≤ a ∧ b ≤ hi ∧ ∀ q : ℚ, SeriesVal.num (.fin q) ∈ vs → lo ≤ q ∧ q ≤ hi := by
  intro vs
  induction vs with
  | nil =>
    intro _ a b
    exact ⟨a, b, rfl, Or.inl rfl, Or.inl rfl, le_refl a, le_refl b,
      fun q hq => absurd hq (List.not_mem_nil _)⟩
  | cons v vs ih =>
    intro hfin a b
    obtain ⟨q0, hq0⟩ := hfin v (List.mem_cons_self v vs)
    subst hq0
    have hstep : extentStep (some (.fin a, .fin b)) (.num (.fin q0)) =
        some (.fin (if q0 < a then q0 else a), .fin (if b < q0 then q0 else b)) := by
      simp [extentStep, ExtNum.lt, apply_ite ExtNum.fin]
    obtain ⟨lo, hi, heq, hlo, hhi, hloa, hhib, hbound⟩ :=
      ih (fun v hv => hfin v (List.mem_cons_of_mem _ hv))
        (if q0 < a then q0 else a) (if b < q0 then q0 else b)
    refine ⟨lo, hi, by rw [List.foldl_cons, hstep]; exact heq, ?_, ?_, ?_, ?_, ?_⟩
    · rcases hlo with h | h
      · split_ifs at h with hc
        · exact Or.inr (by rw [h]; exact List.mem_cons_self _ _)
        · exact Or.inl h
      · exact Or.inr (List.mem_cons_of_mem _ h)
    · rcases hhi with h | h
      · split_ifs at h with hc
        · exact Or.inr (by rw [h]; exact List.mem_cons_self _ _)
        · exact Or.inl h
      · exact Or.inr (List.mem_cons_of_mem _ h)
    · split_ifs at hloa with hc
      · linarith
      · exact hloa
    · split_ifs at hhib with hc
      · linarith
      · exact hhib
    · intro q hq
      rcases List.mem_cons.mp hq with h | h
      · have hq0q : q = q0 := by
          simpa [SeriesVal.num.injEq, ExtNum.fin.injEq] using h
        subst hq0q
        constructor
        · split_ifs at hloa with hc
          · exact hloa
          · linarith [not_lt.mp hc]
        · split_ifs at hhib with hc
          · exact hhib
          · linarith [not_lt.mp hc]
      · exact hbound q h

/-- `d3.extent` over a non-empty list of finite numbers returns the attained
minimum and maximum. -/
theorem extent_fin_of_nonempty (vs : List SeriesVal) (hne : vs ≠ [])
    (hfin : ∀ v ∈ vs, ∃ q : ℚ, v = .num (.fin q)) :
    ∃ lo hi : ℚ, extent vs = some (.fin lo, .fin hi) ∧
      SeriesVal.num (.fin lo) ∈ vs ∧ SeriesVal.num (.fin hi) ∈ vs ∧
      ∀ q : ℚ, SeriesVal.num (.fin q) ∈ vs → lo ≤ q ∧ q ≤ hi := by
  cases vs with
  | nil => exact absurd rfl hne
  | cons v vs =>
    obtain ⟨q0, hq0⟩ := hfin v (List.mem_cons_self v vs)
    subst hq0
    obtain ⟨lo, hi, heq, hlo, hhi, hloa, hhib, hbound⟩ :=
      extent_fold_fin vs (fun v hv => hfin v (List.mem_cons_of_mem _ hv)) q0 q0
    refine ⟨lo, hi, ?_, ?_, ?_, ?_⟩
    · rw [extent, List.foldl_cons]
      simpa [extentStep] using heq
    · rcases hlo with h | h
      · exact h ▸ List.mem_cons_self _ _
      · exact List.mem_cons_of_mem _ h
    · rcases hhi with h | h
      · exact h ▸ List.mem_cons_self _ _
      · exact List.mem_cons_of_mem _ h
    · intro q hq
      rcases List.mem_cons.mp hq with h | h
      · have hq0q : q = q0 := by
          simpa [SeriesVal.num.injEq, ExtNum.fin.injEq] using h
        subst hq0q
        exact ⟨hloa, hhib⟩
      · exact hbound q h

/-- C2: for non-empty data and series whose accessor outputs are all finite
numbers, the un-niced value domain computed by the render pass is
`[min, max]` over the outputs of ALL series accessors applied to ALL rows
combined — one shared vertical scale, not a per-series domain. -/
theorem yDomain_min_max_all_series {α : Type} (data : List α) (series : List (SeriesCfg α))
    (hd : data ≠ []) (hs : series ≠ [])
    (hfin : ∀ cfg ∈ series, ∀ d ∈ data, ∃ q : ℚ, cfg.accessor d = .num (.fin q)) :
    ∃ lo hi : ℚ,
      computeYDomain (yValues data (series.map SeriesCfg.accessor)) =
        some (.fin lo, .fin hi) ∧
      (∃ d ∈ data, ∃ cfg ∈ series, cfg.accessor d = .num (.fin lo)) ∧
      (∃ d ∈ data, ∃ cfg ∈ series, cfg.accessor d = .num (.fin hi)) ∧
      ∀ d ∈ data, ∀ cfg ∈ series, ∀ q : ℚ,
        cfg.accessor d = .num (.fin q) → lo ≤ q ∧ q ≤ hi := by
  have hmem : ∀ v, v ∈ yValues data (series.map SeriesCfg.accessor) ↔
      ∃ d ∈ data, ∃ cfg ∈ series, cfg.accessor d = v := by
    intro v
    simp only [yValues, List.mem_flatMap, List.mem_map]
    constructor
    · rintro ⟨d, hdm, f, ⟨cfg, hcfg, rfl⟩, hfd⟩
      exact ⟨d, hdm, cfg, hcfg, hfd⟩
    · rintro ⟨d, hdm, cfg, hcfg, hfd⟩
      exact ⟨d, hdm, cfg.accessor, ⟨cfg, hcfg, rfl⟩, hfd⟩
  obtain ⟨d0, hd0⟩ := List.exists_mem_of_ne_nil data hd
  obtain ⟨c0, hc0⟩ := List.exists_mem_of_ne_nil series hs
  have hne : yValues data (series.map SeriesCfg.accessor) ≠ [] :=
    List.ne_nil_of_mem ((hmem _).mpr ⟨d0, hd0, c0, hc0, rfl⟩)
  have hfin' : ∀ v ∈ yValues data (series.map SeriesCfg.accessor),
      ∃ q : ℚ, v = .num (.fin q) := by
    intro v hv
    obtain ⟨d, hdm, cfg, hcfg, hfd⟩ := (hmem v).mp hv
    obtain ⟨q, hq⟩ := hfin cfg hcfg d hdm
    exact ⟨q, by rw [← hfd, hq]⟩
  obtain ⟨lo, hi, heq, hlom, hhim, hbound⟩ :=
    extent_fin_of_nonempty _ hne hfin'
  refine ⟨lo, hi, heq, (hmem _).mp hlom, (hmem _).mp hhim, ?_⟩
  intro d hdm cfg hcfg q hq
  exact hbound q ((hmem _).mpr ⟨d, hdm, cfg, hcfg, hq⟩)

/-- Witness for `yDomain_min_max_all_series`: two series over three rows with
combined range `[1, 6]`. -/
theorem yDomain_min_max_witness :
    ∃ lo hi : ℚ,
      computeYDomain (yValues [(1 : ℚ), 2, 3]
        ([⟨"A", fun d => .num (.fin d), none⟩,
          ⟨"B", fun d => .num (.fin (2 * d)), none⟩].map SeriesCfg.accessor)) =
        some (.fin lo, .fin hi) ∧
      (∃ d ∈ [(1 : ℚ), 2, 3], ∃ cfg ∈
          [⟨"A", fun d => .num (.fin d), none⟩,
           (⟨"B", fun d => .num (.fin (2 * d)), none⟩ : SeriesCfg ℚ)],
          cfg.accessor d = .num (.fin lo)) ∧
      (∃ d ∈ [(1 : ℚ), 2, 3], ∃ cfg ∈
          [⟨"A", fun d => .num (.fin d), none⟩,
           (⟨"B", fun d => .num (.fin (2 * d)), none⟩ : SeriesCfg ℚ)],
          cfg.accessor d = .num (.fin hi)) ∧
      ∀ d ∈ [(1 : ℚ), 2, 3], ∀ cfg ∈
          [⟨"A", fun d => .num (.fin d), none⟩,
           (⟨"B", fun d => .num (.fin (2 * d)), none⟩ : SeriesCfg ℚ)],
        ∀ q : ℚ, cfg.accessor d = .num (.fin q) → lo ≤ q ∧ q ≤ hi :=
  yDomain_min_max_all_series [(1 : ℚ), 2, 3]
    [⟨"A", fun d => .num (.fin d), none⟩, ⟨"B", fun d => .num (.fin (2 * d)), none⟩]
    (by simp) (by simp)
    (by
      rintro cfg hcfg d hdm
      rcases List.mem_cons.mp hcfg with h | h
      · exact ⟨d, by rw [h]⟩
      · rcases List.mem_cons.mp h with h2 | h2
        · exact ⟨2 * d, by rw [h2]⟩
        · exact absurd h2 (List.not_mem_nil _))

/-! ## Time-domain check (C6) -/

/-- The time-extent fold keeps both accumulator components inside the
starting pair or the traversed list. -/
theorem extentTime_fold_mem :
    ∀ (vs : List TimeVal) (mn mx : TimeVal),
    ∃ mn' mx', vs.foldl extentTimeStep (some (mn, mx)) = some (mn', mx') ∧
      (mn' = mn ∨ mn' ∈ vs) ∧ (mx' = mx ∨ mx' ∈ vs) := by
  intro vs
  induction vs with
  | nil => intro mn mx; exact ⟨mn, mx, rfl, Or.inl rfl, Or.inl rfl⟩
  | cons v vs ih =>
    intro mn mx
    obtain ⟨mn', mx', heq, hmn, hmx⟩ :=
      ih (if v.toQ < mn.toQ then v else mn) (if mx.toQ < v.toQ then v else mx)
    refine ⟨mn', mx', by rw [List.foldl_cons]; exact heq, ?_, ?_⟩
    · rcases hmn with h | h
      · split_ifs at h
        · exact Or.inr (h ▸ List.mem_cons_self _ _)
        · exact Or.inl h
      · exact Or.inr (List.mem_cons_of_mem _ h)
    · rcases hmx with h | h
      · split_ifs at h
        · exact Or.inr (h ▸ List.mem_cons_self _ _)
        · exact Or.inl h
      · exact Or.inr (List.mem_cons_of_mem _ h)

/-- `d3.extent` of a non-empty time list yields endpoints that are members
of the list. -/
theorem extentTime_endpoints_mem (vs : List TimeVal) (hne : vs ≠ []) :
    ∃ mn mx, extentTime vs = some (mn, mx) ∧ mn ∈ vs ∧ mx ∈ vs := by
  cases vs with
  | nil => exact absurd rfl hne
  | cons v vs =>
    obtain ⟨mn, mx, heq, hmn, hmx⟩ := extentTime_fold_mem vs v v
    refine ⟨mn, mx, ?_, ?_, ?_⟩
    · rw [extentTime, List.foldl_cons]
      exact heq
    · rcases hmn with h | h
      · exact h ▸ List.mem_cons_self _ _
      · exact List.mem_cons_of_mem _ h
    · rcases hmx with h | h
      · exact h ▸ List.mem_cons_self _ _
      · exact List.mem_cons_of_mem _ h

/-- C6 is false as stated: a timeline mixing `Date` and number values passes
the validation whenever the extent's two endpoints happen to be `Date`s —
here the numeric value 5 sits between `Date(0)` and `Date(10)` and the
render pass proceeds to build the scale. -/
theorem mixed_timeline_passes_check :
    xDomainCheck [TimeVal.date 0, TimeVal.num 5, TimeVal.date 10] = true ∧
    TimeVal.num 5 ∈ [TimeVal.date 0, TimeVal.num 5, TimeVal.date 10] ∧
    (TimeVal.num 5).isDate = false := by
  refine ⟨rfl, by simp, rfl⟩

/-- C6 (amended): the x-domain validation only inspects the two extent
endpoints (which are members of the timeline): an all-`Date` timeline
passes, an all-numeric timeline is rejected, but a mixed timeline is
rejected only when a non-`Date` value is an extremum. -/
theorem xDomainCheck_endpoints (vs : List TimeVal) (hne : vs ≠ []) :
    (∃ mn mx, extentTime vs = some (mn, mx) ∧ mn ∈ vs ∧ mx ∈ vs ∧
      xDomainCheck vs = (mn.isDate && mx.isDate)) ∧
    ((∀ v ∈ vs, v.isDate = true) → xDomainCheck vs = true) ∧
    ((∀ v ∈ vs, v.isDate = false) → xDomainCheck vs = false) := by
  obtain ⟨mn, mx, heq, hmn, hmx⟩ := extentTime_endpoints_mem vs hne
  refine ⟨⟨mn, mx, heq, hmn, hmx, by rw [xDomainCheck, heq]⟩, ?_, ?_⟩
  · intro hall
    simp only [xDomainCheck, heq]
    rw [hall mn hmn, hall mx hmx]
    rfl
  · intro hall
    simp only [xDomainCheck, heq]
    rw [hall mn hmn]
    rfl

/-- Witness for `xDomainCheck_endpoints`: an all-`Date` timeline passes. -/
theorem xDomainCheck_endpoints_witness :
    xDomainCheck [TimeVal.date 1, TimeVal.date 2] = true :=
  (xDomainCheck_endpoints [TimeVal.date 1, TimeVal.date 2] (by simp)).2.1
    (by
      intro v hv
      rcases List.mem_cons.mp hv with h | h
      · rw [h]; rfl
      · rcases List.mem_cons.mp h with h2 | h2
        · rw [h2]; rfl
        · exact absurd h2 (List.not_mem_nil _))

/-! ## Series/legend reconciliation (C7) -/

theorem dataJoin_labels (n : ℕ) (old : List JoinedElem) (ls : List String) :
    (dataJoinByIndex n old ls).2.map JoinedElem.label = ls := by
  induction ls generalizing old n with
  | nil => cases old <;> simp [dataJoinByIndex]
  | cons l ls ih =>
    cases old with
    | nil => simp [dataJoinByIndex, ih]
    | cons e es => simp [dataJoinByIndex, ih]

theorem dataJoin_length (n : ℕ) (old : List JoinedElem) (ls : List String) :
    (dataJoinByIndex n old ls).2.length = ls.length := by
  have := congrArg List.length (dataJoin_labels n old ls)
  simpa using this

/-- Reused nodes keep their identity and take the update behaviour. -/
theorem dataJoin_getD_update (n : ℕ) (old : List JoinedElem) (ls : List String) :
    ∀ i, i < old.length → i < ls.length →
      (dataJoinByIndex n old ls).2.getD i ⟨0, "", false⟩ =
        ⟨(old.getD i ⟨0, "", false⟩).id, ls.getD i "", false⟩ := by
  induction ls generalizing old n with
  | nil => intro i _ h2; exact absurd h2 (by simp)
  | cons l ls ih =>
    intro i h1 h2
    cases old with
    | nil => exact absurd h1 (by simp)
    | cons e es =>
      cases i with
      | zero => simp [dataJoinByIndex]
      | succ i =>
        simp only [dataJoinByIndex, List.getD_cons_succ]
        exact ih n es i (by simpa using h1) (by simpa using h2)

/-- Nodes beyond the old length take the enter behaviour. -/
theorem dataJoin_getD_enter (n : ℕ) (old : List JoinedElem) (ls : List String) :
    ∀ i, old.length ≤ i → i < ls.length →
      ((dataJoinByIndex n old ls).2.getD i ⟨0, "", false⟩).entered = true := by
  induction ls generalizing old n with
  | nil => intro i _ h2; exact absurd h2 (by simp)
  | cons l ls ih =>
    intro i h1 h2
    cases old with
    | nil =>
      cases i with
      | zero => simp [dataJoinByIndex]
      | succ i =>
        simp only [dataJoinByIndex, List.getD_cons_succ]
        exact ih (n + 1) [] i (by simp) (by simpa using h2)
    | cons e es =>
      cases i with
      | zero => exact absurd h1 (by simp)
      | succ i =>
        simp only [dataJoinByIndex, List.getD_cons_succ]
        exact ih n es i (by simpa using h1) (by simpa using h2)

/-- C7 is false as stated: reconciliation is positional, not keyed by label.
Rendering `[A, B]` and re-rendering with `[B]` keeps the node that was `A`'s
(id 0), mutating its label to `B` with the update behaviour, and removes
`B`'s original node (id 1) — for the path and the legend entry alike; and
re-rendering `[A, B]` as `[C, B]` (a rename) updates node 0 in place
instead of removing `A`'s node and entering a new one. -/
theorem reconciliation_not_by_label :
    (demoRender [seriesA, seriesB] emptySurface).1.seriesPaths =
      [⟨0, "A", true⟩, ⟨1, "B", true⟩] ∧
    (demoRender [seriesB] (demoRender [seriesA, seriesB] emptySurface).1).1.seriesPaths =
      [⟨0, "B", false⟩] ∧
    (demoRender [seriesA, seriesB] emptySurface).1.legendItems =
      [⟨2, "A", true⟩, ⟨3, "B", true⟩] ∧
    (demoRender [seriesB] (demoRender [seriesA, seriesB] emptySurface).1).1.legendItems =
      [⟨2, "B", false⟩] ∧
    (demoRender [seriesC, seriesB] (demoRender [seriesA, seriesB] emptySurface).1).1.seriesPaths =
      [⟨0, "C", false⟩, ⟨1, "B", false⟩] := by
  refine ⟨?_, ?_, ?_, ?_, ?_⟩ <;>
    norm_num [demoRender, chart, demoSetup, validateSetup, chartBody, seriesA, seriesB,
      seriesC, emptySurface, extentTime, extentTimeStep, TimeVal.toQ, TimeVal.isDate, yValues,
      computeYDomain, extent, extentStep, ExtNum.lt, dataJoinByIndex, noTimeTicks, noLinTicks,
      SeriesCfg.accessor, SeriesCfg.label]

/-- C7 (amended): `renderSeries` and `renderLegend` reconcile by datum INDEX
(their joins pass no key function): a re-render binds the i-th existing node
to the i-th entry of `series[]` — keeping its DOM identity and taking the
update behaviour even when the label at that index changed — enters fresh
nodes only past the old node count, and removes the trailing surplus.
Hence removing a middle series shifts labels down and deletes the LAST
node, and renaming a label is an in-place update, not remove-plus-add. -/
theorem reconciliation_positional (n : ℕ) (old : List JoinedElem) (ls : List String) :
    (dataJoinByIndex n old ls).2.map JoinedElem.label = ls ∧
    (dataJoinByIndex n old ls).2.length = ls.length ∧
    (∀ i, i < old.length → i < ls.length →
      (dataJoinByIndex n old ls).2.getD i ⟨0, "", false⟩ =
        ⟨(old.getD i ⟨0, "", false⟩).id, ls.getD i "", false⟩) ∧
    (∀ i, old.length ≤ i → i < ls.length →
      ((dataJoinByIndex n old ls).2.getD i ⟨0, "", false⟩).entered = true) :=
  ⟨dataJoin_labels n old ls, dataJoin_length n old ls,
    dataJoin_getD_update n old ls, dataJoin_getD_enter n old ls⟩

/-- Witness for `reconciliation_positional` at a concrete join. -/
theorem reconciliation_positional_witness :
    (dataJoinByIndex 5 [⟨7, "X", false⟩] ["Y", "Z"]).2.map JoinedElem.label = ["Y", "Z"] ∧
    (dataJoinByIndex 5 [⟨7, "X", false⟩] ["Y", "Z"]).2.length = ["Y", "Z"].length ∧
    (∀ i, i < [(⟨7, "X", false⟩ : JoinedElem)].length → i < ["Y", "Z"].length →
      (dataJoinByIndex 5 [⟨7, "X", false⟩] ["Y", "Z"]).2.getD i ⟨0, "", false⟩ =
        ⟨([(⟨7, "X", false⟩ : JoinedElem)].getD i ⟨0, "", false⟩).id,
          ["Y", "Z"].getD i "", false⟩) ∧
    (∀ i, [(⟨7, "X", false⟩ : JoinedElem)].length ≤ i → i < ["Y", "Z"].length →
      ((dataJoinByIndex 5 [⟨7, "X", false⟩] ["Y", "Z"]).2.getD i ⟨0, "", false⟩).entered =
        true) :=
  reconciliation_positional 5 [⟨7, "X", false⟩] ["Y", "Z"]

/-! ## Render idempotence (C8) -/

theorem dataJoin_same_length (n : ℕ) (old : List JoinedElem) (ls : List String)
    (h : old.length = ls.length) :
    (dataJoinByIndex n old ls).1 = n ∧
    (dataJoinByIndex n old ls).2.map (fun e => (e.id, e.label)) =
      (old.map JoinedElem.id).zip ls := by
  induction ls generalizing old n with
  | nil =>
    cases old with
    | nil => simp [dataJoinByIndex]
    | cons e es => simp at h
  | cons l ls ih =>
    cases old with
    | nil => simp at h
    | cons e es =>
      obtain ⟨h1, h2⟩ := ih n es (by simpa using h)
      simp [dataJoinByIndex, h1, h2]

/-- Re-joining a join's own output with the same data keeps every node: no
fresh ids are consumed and the (id, label) content is unchanged. -/
theorem dataJoin_rejoin (n m : ℕ) (old : List JoinedElem) (ls : List String) :
    (dataJoinByIndex m (dataJoinByIndex n old ls).2 ls).1 = m ∧
    (dataJoinByIndex m (dataJoinByIndex n old ls).2 ls).2.map (fun e => (e.id, e.label)) =
      (dataJoinByIndex n old ls).2.map (fun e => (e.id, e.label)) := by
  have hlen := dataJoin_length n old ls
  have hlab := dataJoin_labels n old ls
  set xs := (dataJoinByIndex n old ls).2 with hxs
  obtain ⟨h1, h2⟩ := dataJoin_same_length m xs ls hlen
  refine ⟨h1, ?_⟩
  rw [h2, ← hlab, List.zip_map']

theorem chartBody_idem {α : Type} (tt : ℚ × ℚ → ℕ → List ℚ)
    (lt : ExtNum × ExtNum → ℕ → List ℚ) (series : List (SeriesCfg α)) (data : List α)
    (xSerie : α → TimeVal) (m : MarginConfig) (xT yT : ℕ) (w h : ℚ) (surf : Surface) :
    (chartBody tt lt series data xSerie m xT yT w h
        (chartBody tt lt series data xSerie m xT yT w h surf).1).1.keys =
      (chartBody tt lt series data xSerie m xT yT w h surf).1.keys := by
  by_cases h0 : w = 0 ∨ h = 0
  · simp [chartBody, h0]
  · by_cases h1 : w ≤ m.left + m.right ∨ h ≤ m.top + m.bottom
    · simp [chartBody, h0, h1, sub_nonpos]
    · cases hx : extentTime (data.map xSerie) with
      | none => simp [chartBody, h0, h1, hx, sub_nonpos]
      | some p =>
        obtain ⟨mn, mx⟩ := p
        by_cases hdt : mn.isDate = false ∨ mx.isDate = false
        · simp [chartBody, h0, h1, hx, hdt, sub_nonpos]
        · cases hy : computeYDomain (yValues data (series.map SeriesCfg.accessor)) with
          | none => simp [chartBody, h0, h1, hx, hdt, hy, sub_nonpos]
          | some pq =>
            obtain ⟨ymn, ymx⟩ := pq
            simp [chartBody, h0, h1, hx, hdt, hy, sub_nonpos, Surface.keys]
            refine ⟨(dataJoin_rejoin surf.nextId _ surf.seriesPaths _).2, ?_⟩
            rw [(dataJoin_rejoin surf.nextId _ surf.seriesPaths _).1]
            exact (dataJoin_rejoin _ _ surf.legendItems _).2

/-- A passing validation forces the validated fields to be present. -/
theorem validateSetup_none_fields {α : Type} (s : ChartSetup α)
    (h : validateSetup s = none) :
    ∃ sl dl xf, s.series = some sl ∧ s.data = some dl ∧ s.xSerie = some xf := by
  obtain ⟨ser, da, xs, cs⟩ := s
  cases ser <;> cases da <;> cases xs <;> cases cs <;>
    simp_all [validateSetup] <;> split_ifs at h <;> simp_all

/-- C8: invoking the render pass twice with identical configuration, data and
surface size yields an identical set of identity-keyed visual elements —
same `viewBox`, axes, grid tick sets, and the same (id, label) sequences for
series paths and legend entries: no duplicates and no leaks. -/
theorem render_idempotent_keys {α : Type} (tt : ℚ × ℚ → ℕ → List ℚ)
    (lt : ExtNum × ExtNum → ℕ → List ℚ) (s : ChartSetup α) (m : MarginConfig)
    (xT yT : ℕ) (w h : ℚ) (surf : Surface) :
    (chart tt lt s m xT yT w h (chart tt lt s m xT yT w h surf).1).1.keys =
      (chart tt lt s m xT yT w h surf).1.keys := by
  rcases hval : validateSetup s with _ | err
  · obtain ⟨sl, dl, xf, hs1, hs2, hs3⟩ := validateSetup_none_fields s hval
    have hred : ∀ sf, chart tt lt s m xT yT w h sf =
        chartBody tt lt sl dl xf m xT yT w h sf := by
      intro sf
      simp only [chart, hval, hs1, hs2, hs3]
    simp only [hred]
    exact chartBody_idem tt lt sl dl xf m xT yT w h surf
  · have hred : ∀ sf, chart tt lt s m xT yT w h sf = (sf, [], .invalidSetup) := by
      intro sf
      simp only [chart, hval]
    simp only [hred]

/-- Witness for `render_idempotent_keys` on the concrete demo render. -/
theorem render_idempotent_keys_witness :
    (chart noTimeTicks noLinTicks (demoSetup [seriesA]) ⟨1, 1, 1, 1⟩ 0 0 10 10
        (chart noTimeTicks noLinTicks (demoSetup [seriesA]) ⟨1, 1, 1, 1⟩ 0 0 10 10
          emptySurface).1).1.keys =
      (chart noTimeTicks noLinTicks (demoSetup [seriesA]) ⟨1, 1, 1, 1⟩ 0 0 10 10
          emptySurface).1.keys :=
  render_idempotent_keys noTimeTicks noLinTicks (demoSetup [seriesA]) ⟨1, 1, 1, 1⟩ 0 0 10 10
    emptySurface

/-! ## Error handling and surface mutation (C3) -/

/-- Per-branch mutation accounting for the guarded render body. -/
theorem chartBody_mutations {α : Type} (tt : ℚ × ℚ → ℕ → List ℚ)
    (lt : ExtNum × ExtNum → ℕ → List ℚ) (series : List (SeriesCfg α)) (data : List α)
    (xSerie : α → TimeVal) (m : MarginConfig) (xT yT : ℕ) (w h : ℚ) (surf : Surface) :
    ((chartBody tt lt series data xSerie m xT yT w h surf).2.2 = .zeroSize →
      (chartBody tt lt series data xSerie m xT yT w h surf).2.1 = [] ∧
      (chartBody tt lt series data xSerie m xT yT w h surf).1 = surf) ∧
    ((chartBody tt lt series data xSerie m xT yT w h surf).2.2 = .nonPositiveInner ∨
     (chartBody tt lt series data xSerie m xT yT w h surf).2.2 = .nonDateX ∨
     (chartBody tt lt series data xSerie m xT yT w h surf).2.2 = .nonNumericY →
      (chartBody tt lt series data xSerie m xT yT w h surf).2.1 =
        [Mutation.setViewBox w h] ∧
      (chartBody tt lt series data xSerie m xT yT w h surf).1 =
        { surf with viewBox := some (w, h) }) ∧
    (Mutation.renderChildren ∈ (chartBody tt lt series data xSerie m xT yT w h surf).2.1 ↔
      (chartBody tt lt series data xSerie m xT yT w h surf).2.2 = .rendered) ∧
    (chartBody tt lt series data xSerie m xT yT w h surf).2.2 ≠ .invalidSetup := by
  by_cases h0 : w = 0 ∨ h = 0
  · simp [chartBody, h0]
  · by_cases h1 : w ≤ m.left + m.right ∨ h ≤ m.top + m.bottom
    · simp [chartBody, h0, h1, sub_nonpos]
    · cases hx : extentTime (data.map xSerie) with
      | none => simp [chartBody, h0, h1, hx, sub_nonpos]
      | some p =>
        obtain ⟨mn, mx⟩ := p
        by_cases hdt : mn.isDate = false ∨ mx.isDate = false
        · simp [chartBody, h0, h1, hx, hdt, sub_nonpos]
        · cases hy : computeYDomain (yValues data (series.map SeriesCfg.accessor)) with
          | none => simp [chartBody, h0, h1, hx, hdt, hy, sub_nonpos]
          | some pq =>
            obtain ⟨ymn, ymx⟩ := pq
            simp [chartBody, h0, h1, hx, hdt, hy, sub_nonpos]

/-- C3 is false as stated: a render pass failing the plotting-area check (a
DomainError) has already mutated the drawing surface — the `viewBox`
attribute is set before the inner-dimension and domain checks run, so the
previous visual state is not left untouched. -/
theorem abort_after_viewBox_mutation :
    chart noTimeTicks noLinTicks (demoSetup [seriesA]) ⟨30, 40, 30, 40⟩ 0 0 50 100
        emptySurface =
      ({ emptySurface with viewBox := some (50, 100) },
        [Mutation.setViewBox 50 100], .nonPositiveInner) ∧
    ({ emptySurface with viewBox := some ((50 : ℚ), (100 : ℚ)) } ≠ emptySurface) := by
  constructor
  · norm_num [chart, demoSetup, validateSetup, chartBody, seriesA, emptySurface,
      noTimeTicks, noLinTicks]
  · simp [emptySurface]

/-- C3 (amended): a render pass failing `validateSetup` or the zero-size
surface check performs no surface mutation at all; a pass failing the
inner-dimension or domain checks has performed exactly the `viewBox`
attribute write and nothing else; child elements are mutated only on a pass
that completes, and every failing pass returns (with a logged warning)
rather than throwing. -/
theorem render_error_mutation_policy {α : Type} (tt : ℚ × ℚ → ℕ → List ℚ)
    (lt : ExtNum × ExtNum → ℕ → List ℚ) (s : ChartSetup α) (m : MarginConfig)
    (xT yT : ℕ) (w h : ℚ) (surf : Surface) :
    ((chart tt lt s m xT yT w h surf).2.2 = .invalidSetup ∨
     (chart tt lt s m xT yT w h surf).2.2 = .zeroSize →
      (chart tt lt s m xT yT w h surf).2.1 = [] ∧
      (chart tt lt s m xT yT w h surf).1 = surf) ∧
    ((chart tt lt s m xT yT w h surf).2.2 = .nonPositiveInner ∨
     (chart tt lt s m xT yT w h surf).2.2 = .nonDateX ∨
     (chart tt lt s m xT yT w h surf).2.2 = .nonNumericY →
      (chart tt lt s m xT yT w h surf).2.1 = [Mutation.setViewBox w h] ∧
      (chart tt lt s m xT yT w h surf).1 = { surf with viewBox := some (w, h) }) ∧
    (Mutation.renderChildren ∈ (chart tt lt s m xT yT w h surf).2.1 ↔
      (chart tt lt s m xT yT w h surf).2.2 = .rendered) := by
  rcases hval : validateSetup s with _ | err
  · obtain ⟨sl, dl, xf, hs1, hs2, hs3⟩ := validateSetup_none_fields s hval
    have hred : chart tt lt s m xT yT w h surf =
        chartBody tt lt sl dl xf m xT yT w h surf := by
      simp only [chart, hval, hs1, hs2, hs3]
    obtain ⟨hz, hv, hr, hni⟩ := chartBody_mutations tt lt sl dl xf m xT yT w h surf
    rw [hred]
    refine ⟨?_, hv, hr⟩
    rintro (habs | hzz)
    · exact absurd habs hni
    · exact hz hzz
  · have hred : chart tt lt s m xT yT w h surf = (surf, [], .invalidSetup) := by
      simp only [chart, hval]
    rw [hred]
    simp

/-- Witness for `render_error_mutation_policy`: rendering against a zero-width
surface leaves the surface untouched. -/
theorem render_error_mutation_policy_witness :
    (chart noTimeTicks noLinTicks (demoSetup [seriesA]) ⟨1, 1, 1, 1⟩ 0 0 0 10
        emptySurface).2.1 = [] ∧
    (chart noTimeTicks noLinTicks (demoSetup [seriesA]) ⟨1, 1, 1, 1⟩ 0 0 0 10
        emptySurface).1 = emptySurface :=
  (render_error_mutation_policy noTimeTicks noLinTicks (demoSetup [seriesA]) ⟨1, 1, 1, 1⟩
      0 0 0 10 emptySurface).1
    (Or.inr (by norm_num [chart, demoSetup, validateSetup, chartBody, seriesA,
      emptySurface, noTimeTicks, noLinTicks]))

/-! ## Draw-in transition (C9) -/

/-- C9: during the draw-in of a freshly entered series path, the dash offset
starts at the measured total path length — so the visible stroke length
starts at 0 — transitions to 0, and the reveal is complete (visible length
equals the full path length) once `transitionTime` has elapsed; with
duration 0 the full reveal holds immediately at every instant, with no
observable intermediate state. -/
theorem drawIn_reveal (ease : ℚ → ℚ) (totalLength duration : ℚ) (h0 : ease 0 = 0) :
    (0 < duration →
      dashOffsetAt ease totalLength duration 0 = totalLength ∧
      visibleLengthAt ease totalLength duration 0 = 0) ∧
    (∀ t, duration ≤ t → dashOffsetAt ease totalLength duration t = 0 ∧
      visibleLengthAt ease totalLength duration t = totalLength) ∧
    (duration = 0 → ∀ t, dashOffsetAt ease totalLength duration t = 0 ∧
      visibleLengthAt ease totalLength duration t = totalLength) := by
  refine ⟨?_, ?_, ?_⟩
  · intro hd
    have hneg : ¬(duration ≤ 0 ∨ duration ≤ 0) := by
      push_neg
      exact ⟨by linarith, by linarith⟩
    constructor
    · rw [dashOffsetAt, if_neg hneg, zero_div, h0]
      ring
    · rw [visibleLengthAt, dashOffsetAt, if_neg hneg, zero_div, h0]
      ring
  · intro t ht
    constructor
    · rw [dashOffsetAt, if_pos (Or.inr ht)]
    · rw [visibleLengthAt, dashOffsetAt, if_pos (Or.inr ht)]
      ring
  · intro hd t
    constructor
    · rw [dashOffsetAt, if_pos (Or.inl (le_of_eq hd))]
    · rw [visibleLengthAt, dashOffsetAt, if_pos (Or.inl (le_of_eq hd))]
      ring

/-- Witness for `drawIn_reveal`: a length-7 path with a 4 ms transition is
fully revealed at 4 ms. -/
theorem drawIn_reveal_witness :
    dashOffsetAt (fun p => p) 7 4 4 = 0 ∧ visibleLengthAt (fun p => p) 7 4 4 = 7 :=
  (drawIn_reveal (fun p => p) 7 4 rfl).2.1 4 (le_refl 4)

/-! ## Fluent setters (C10) -/

/-- C10 is false as stated: `chart.margin` given an array — an argument of
the wrong type, not a `MarginConfig` record — accepts it without logging any
warning (the guard only tests `typeof === "object" && != null`), and
`chart.tooltip` given an array likewise logs nothing and even replaces the
stored tooltip with the array. -/
theorem margin_tooltip_accept_arrays_silently :
    isMarginRecord JsArg.arr = false ∧
    chart.margin defaultChartVars JsArg.arr = (defaultChartVars, false) ∧
    isTooltipInstance JsArg.arr = false ∧
    chart.tooltip defaultChartVars JsArg.arr =
      ({ defaultChartVars with tooltip := JsArg.arr }, false) := by
  refine ⟨rfl, rfl, rfl, rfl⟩

/-- C10 (amended): every fluent setter is total (never throws, always
returns the chart for chaining) and, when its coded runtime guard rejects
the argument — wrong `typeof` for the accessor/array/boolean/number/string/
object guards, a colour scale without `domain`/`range`, a negative number
for the numeric setters, or a null-ish value for `margin`/`tooltip` — it
warns and leaves the stored state unchanged, and does not warn when the
guard passes.  The `margin` and `tooltip` guards accept ANY non-null value
of object type, so arrays and other wrongly-shaped objects are accepted
without a warning (`margin` then stores nothing observable, `tooltip`
stores the wrong value). -/
theorem setters_guard_behaviour (st : ChartVars) (a : JsArg) :
    (a.typeof ≠ .function → chart.xSerie st a = (st, true)) ∧
    (a.typeof = .function → (chart.xSerie st a).2 = false) ∧
    (a.isArray = false → chart.series st a = (st, true) ∧ chart.data st a = (st, true)) ∧
    (a.isArray = true → (chart.series st a).2 = false ∧ (chart.data st a).2 = false) ∧
    ((∀ hd hr : Bool, a ≠ .fn hd hr) → chart.colorScale st a = (st, true)) ∧
    (∀ hd hr : Bool, a = .fn hd hr → (hd && hr) = false →
      chart.colorScale st a = (st, true)) ∧
    (∀ hd hr : Bool, a = .fn hd hr → (hd && hr) = true →
      (chart.colorScale st a).2 = false) ∧
    (a.typeof ≠ .boolean →
      chart.isCurved st a = (st, true) ∧ chart.isStatic st a = (st, true)) ∧
    (a.typeof = .boolean →
      (chart.isCurved st a).2 = false ∧ (chart.isStatic st a).2 = false) ∧
    (a.typeof ≠ .number → chart.transitionTime st a = (st, true) ∧
      chart.xTicks st a = (st, true) ∧ chart.yTicks st a = (st, true)) ∧
    (∀ q : ℚ, a = .numVal q → q < 0 → chart.transitionTime st a = (st, true) ∧
      chart.xTicks st a = (st, true) ∧ chart.yTicks st a = (st, true)) ∧
    (∀ q : ℚ, a = .numVal q → 0 ≤ q → (chart.transitionTime st a).2 = false ∧
      (chart.xTicks st a).2 = false ∧ (chart.yTicks st a).2 = false) ∧
    (a.typeof ≠ .string → chart.formatXAxis st a = (st, true) ∧
      chart.formatYAxis st a = (st, true) ∧ chart.yAxisLabel st a = (st, true) ∧
      chart.xAxisLabel st a = (st, true)) ∧
    (a.typeof = .string → (chart.formatXAxis st a).2 = false ∧
      (chart.formatYAxis st a).2 = false ∧ (chart.yAxisLabel st a).2 = false ∧
      (chart.xAxisLabel st a).2 = false) ∧
    (a.typeof ≠ .object ∨ a.looseNull = true →
      chart.margin st a = (st, true) ∧ chart.tooltip st a = (st, true)) ∧
    (a.typeof = .object → a.looseNull = false →
      (chart.margin st a).2 = false ∧ (chart.tooltip st a).2 = false ∧
      (isMarginRecord a = false → (chart.margin st a).1 = st)) := by
  rcases a with ⟨hd, hr⟩ | _ | b | q | _ | s2 | ⟨t, rr, bb, ll⟩ | _ | _ | _ | _ <;>
    simp [chart.xSerie, chart.series, chart.data, chart.colorScale, chart.isCurved,
      chart.isStatic, chart.transitionTime, chart.xTicks, chart.yTicks, chart.margin,
      chart.formatXAxis, chart.formatYAxis, chart.yAxisLabel, chart.xAxisLabel,
      chart.tooltip, JsArg.typeof, JsArg.isArray, JsArg.looseNull, isMarginRecord]
  · cases hd <;> cases hr <;> simp
  · rcases lt_or_le q 0 with hq | hq
    · simp [hq, not_le.mpr hq]
    · simp [hq, not_lt.mpr hq]

/-- Witness for `setters_guard_behaviour`: a string argument to `xSerie` is
rejected with a warning and no state change. -/
theorem setters_guard_behaviour_witness :
    chart.xSerie defaultChartVars (.strVal "oops") = (defaultChartVars, true) :=
  (setters_guard_behaviour defaultChartVars (.strVal "oops")).1 (by decide)

end TimeViz
